import Mathlib

/-!
Verification development for a terminal MCP server (shallow embedding).

The embedded program is the gatekeeping core of the server: the immutable
configuration `CONFIG`, the activity logger `logActivity`, the command
validator `validateCommand`, and the three request handlers
`executeCommand`, `list_directory` and `read_file`.

External effects are abstracted as oracles passed to the handlers:
 - shell execution (`performExec` argument) yields an `ExecOutcome`;
 - directory listing / file reading yield `Except`-style results;
 - the log sink append yields an `Except String Unit`.
The handlers record, as data, which subprocesses they spawned
(`execCalls`), which filesystem reads they issued (`fsReads`) and which
log records they asked the logger to append (`log`), so that frame
claims ("no subprocess is spawned", "no log line is produced") are
statable.
-/

/-- Occurrence of `pat` as a contiguous sublist of the second argument. -/
def infixAt (pat : List Char) : List Char → Bool
  | [] => pat.isEmpty
  | l@(_ :: rest) => pat.isPrefixOf l || infixAt pat rest

/-- Substring containment, the embedding of JavaScript
`String.prototype.includes`: `strContains s pat` is true iff `pat`
occurs contiguously inside `s`. -/
def strContains (s pat : String) : Bool :=
  infixAt pat.toList s.toList

/-- Process-wide immutable configuration, from the `CONFIG` object of the
source. -/
structure Config where
  blockedCommands : List String
  timeoutMs : Int
  maxOutputSize : Nat
  allowedDirectories : List String
  logFile : String
deriving Repr

/-- The configuration values compiled into the server. -/
def CONFIG : Config :=
  { blockedCommands := ["rm -rf", "sudo", "wget", "curl -o"]
    timeoutMs := 30000
    maxOutputSize := 1024 * 1024
    allowedDirectories := ["/Users/tanmay/Documents"]
    logFile := "./terminal-mcp.log" }

/-- Scanning helper for the `echo.*>` branch of the file-operation
regular expression: after an occurrence of `echo`, `.*>` matches iff a
`>` appears before any line terminator (`.` does not match line
terminators in the host regex dialect). -/
def gtBeforeLineTerm : List Char → Bool
  | [] => false
  | c :: cs =>
    if c = '>' then true
    else if c = '\n' || c = '\r' || c = '\u2028' || c = '\u2029' then false
    else gtBeforeLineTerm cs

/-- Existence of a match of `echo.*>` anywhere in the character list. -/
def echoRedirect : List Char → Bool
  | [] => false
  | l@(_ :: cs) =>
    ("echo".toList.isPrefixOf l && gtBeforeLineTerm (l.drop 4)) || echoRedirect cs

/-- The file-operation classifier: the test of the regular expression
`(cp|mv|rm|cat|echo.*>|touch|mkdir|rmdir)` against the whole command
line, as a disjunction of substring tests plus the `echo.*>` scan. -/
def isFileOperation (command : String) : Bool :=
  strContains command "cp" || strContains command "mv" ||
  strContains command "rm" || strContains command "cat" ||
  echoRedirect command.toList ||
  strContains command "touch" || strContains command "mkdir" ||
  strContains command "rmdir"

/-- The command validator `validateCommand` of the source: throws (as
`Except.error` with the thrown message) on the first configured blocked
substring found in the command; otherwise classifies the command and
rejects file operations that do not contain an allowed directory as a
substring. -/
def validateCommand (command : String) : Except String Unit :=
  match CONFIG.blockedCommands.find? (fun blockedCmd => strContains command blockedCmd) with
  | some blockedCmd => .error ("Command contains blocked pattern: " ++ blockedCmd)
  | none =>
    let isAllowed := CONFIG.allowedDirectories.any (fun dir => strContains command dir)
    if isFileOperation command && !isAllowed then
      .error "File operations only allowed in permitted directories"
    else
      .ok ()

/-- A record passed to `logActivity` by a handler (the `action` tag and
the `details` object of the source, with the fields each call site
supplies). -/
inductive LogEntry where
  | requested (command : String)
  | executed (command : String) (success : Bool) (outputSize : Nat)
  | errored (command : String) (errMsg : String)
deriving Repr, DecidableEq

/-- The action tag under which a log record is written. -/
def LogEntry.action : LogEntry → String
  | .requested _ => "COMMAND_REQUESTED"
  | .executed _ _ _ => "COMMAND_EXECUTED"
  | .errored _ _ => "COMMAND_ERROR"

/-- The line `logActivity` builds for the sink:
`[timestamp] action: details` followed by a newline. -/
def logLine (timestamp action details : String) : String :=
  "[" ++ timestamp ++ "] " ++ action ++ ": " ++ details ++ "\n"

/-- What `logActivity` produced: the lines actually appended to the sink
and the messages printed to the diagnostic channel (`console.error`). -/
structure LoggerOutput where
  sinkLines : List String
  diagnostics : List String
deriving Repr, DecidableEq

/-- The logger `logActivity` of the source. The sink append is the
oracle `appendFile`; its failure is caught inside the logger, reported
to the diagnostic channel and swallowed. The `Except` result type
records whether anything escapes the logger. -/
def logActivity (appendFile : String → Except String Unit)
    (timestamp action details : String) : Except String LoggerOutput :=
  let logEntry := logLine timestamp action details
  match appendFile logEntry with
  | .ok _ => .ok { sinkLines := [logEntry], diagnostics := [] }
  | .error e =>
      .ok { sinkLines := [], diagnostics := ["Failed to write to log file: " ++ e] }

/-- Outcome of a shell execution (`execPromise`): normal completion with
captured stdout and stderr, or a failure (timeout, buffer exceeded,
spawn error, nonzero exit) carrying the error message. -/
inductive ExecOutcome where
  | success (stdout stderr : String)
  | failure (message : String)
deriving Repr, DecidableEq

/-- Output formatting of the execute-command handler: the
`Standard Output:` and `Standard Error:` sections, each present iff the
corresponding capture is non-empty, with the fixed message substituted
when both are empty. -/
def formatOutput (stdout stderr : String) : String :=
  let result :=
    (if stdout ≠ "" then "Standard Output:\n" ++ stdout ++ "\n" else "") ++
    (if stderr ≠ "" then "Standard Error:\n" ++ stderr ++ "\n" else "")
  if result = "" then "Command executed successfully with no output." else result

/-- Observable output of one execute-command call: the text content
block returned to the caller, the records handed to `logActivity` in
order, and the subprocesses spawned, each with its effective timeout. -/
structure ExecCommandOutput where
  text : String
  log : List LogEntry
  execCalls : List (String × Int)
deriving Repr, DecidableEq

/-- The `execute-command` handler of the source. `performExec` is the
shell-execution oracle (`execPromise`); `timeout` is the caller-supplied
override, defaulted to `CONFIG.timeoutMs`. The handler logs the request,
validates, executes with effective timeout
`min timeout CONFIG.timeoutMs`, formats the output, and converts every
thrown error into a text body prefixed `Error executing command: `. -/
def executeCommand (performExec : String → Int → ExecOutcome)
    (command : String) (timeout : Option Int) : ExecCommandOutput :=
  let t := timeout.getD CONFIG.timeoutMs
  match validateCommand command with
  | .error msg =>
      { text := "Error executing command: " ++ msg
        log := [.requested command, .errored command msg]
        execCalls := [] }
  | .ok _ =>
    let eff := min t CONFIG.timeoutMs
    match performExec command eff with
    | .success stdout stderr =>
        let result := formatOutput stdout stderr
        { text := result
          log := [.requested command, .executed command true result.length]
          execCalls := [(command, eff)] }
    | .failure msg =>
        { text := "Error executing command: " ++ msg
          log := [.requested command, .errored command msg]
          execCalls := [(command, eff)] }

/-- Prefix test on strings, the embedding of JavaScript
`String.prototype.startsWith`: `strStartsWith s pre` is true iff `s`
begins with `pre`. -/
def strStartsWith (s pre : String) : Bool :=
  pre.toList.isPrefixOf s.toList

/-- The path authorizer shared by `list_directory` and `read_file`: the
path must start with one of the configured allowed directories. -/
def isAllowedPath (path : String) : Bool :=
  CONFIG.allowedDirectories.any (fun dir => strStartsWith path dir)

/-- One entry returned by the directory listing, with its
directory/file classification (`withFileTypes`). -/
inductive DirEntry where
  | dir (name : String)
  | file (name : String)
deriving Repr, DecidableEq

/-- Result of the `fs.readdir` oracle. -/
inductive ReaddirResult where
  | ok (items : List DirEntry)
  | err (message : String)
deriving Repr, DecidableEq

/-- Formatting of one listing entry: `[DIR] name` or `[FILE] name`. -/
def formatDirEntry : DirEntry → String
  | .dir name => "[DIR] " ++ name
  | .file name => "[FILE] " ++ name

/-- The embedding of `Array.prototype.join("\n")` on the formatted
entries. -/
def joinLines : List String → String
  | [] => ""
  | [x] => x
  | x :: xs => x ++ "\n" ++ joinLines xs

/-- Observable output of one `list_directory` call: the returned text,
the records handed to the logger (none in the source), and the paths on
which `fs.readdir` was invoked. -/
structure ListDirOutput where
  text : String
  log : List LogEntry
  fsReads : List String
deriving Repr, DecidableEq

/-- The `list_directory` handler of the source: checks the path against
the allowed-directory prefixes, then lists and formats; every thrown
error becomes a text body prefixed `Error listing directory: `. It
never calls `logActivity`. -/
def list_directory (readdir : String → ReaddirResult) (path : String) : ListDirOutput :=
  if isAllowedPath path then
    match readdir path with
    | .ok items =>
        let result := joinLines (items.map formatDirEntry)
        { text := if result = "" then "Directory is empty" else result
          log := []
          fsReads := [path] }
    | .err msg =>
        { text := "Error listing directory: " ++ msg
          log := []
          fsReads := [path] }
  else
    { text := "Error listing directory: Access denied - path outside allowed directories"
      log := []
      fsReads := [] }

/-- Observable output of one `read_file` call. -/
structure ReadFileOutput where
  text : String
  log : List LogEntry
  fsReads : List String
deriving Repr, DecidableEq

/-- The `read_file` handler of the source: same path check as
`list_directory`, then reads the file; every thrown error becomes a text
body prefixed `Error reading file: `. It never calls `logActivity`. -/
def read_file (readFileFs : String → Except String String) (path : String) : ReadFileOutput :=
  if isAllowedPath path then
    match readFileFs path with
    | .ok content => { text := content, log := [], fsReads := [path] }
    | .error msg =>
        { text := "Error reading file: " ++ msg, log := [], fsReads := [path] }
  else
    { text := "Error reading file: Access denied - path outside allowed directories"
      log := []
      fsReads := [] }

/-! Helper lemmas about strings and the embedded definitions. -/

/-- A string of length zero is the empty string. -/
theorem eq_empty_of_length_eq_zero (s : String) (h : s.length = 0) : s = "" := by
  cases s with
  | mk data =>
    cases data with
    | nil => rfl
    | cons c cs => simp [String.length] at h

/-- A non-empty string has positive length. -/
theorem length_pos_of_ne_empty (s : String) (h : s ≠ "") : 0 < s.length := by
  cases s with
  | mk data =>
    cases data with
    | nil => exact absurd rfl h
    | cons c cs => simp [String.length]

/-- A concatenation is empty iff both parts are. -/
theorem append_eq_empty_iff (a b : String) : a ++ b = "" ↔ a = "" ∧ b = "" := by
  constructor
  · intro h
    have hl : a.length + b.length = 0 := by
      have := congrArg String.length h
      rwa [String.length_append] at this
    exact ⟨eq_empty_of_length_eq_zero a (by omega),
           eq_empty_of_length_eq_zero b (by omega)⟩
  · rintro ⟨rfl, rfl⟩
    rfl

/-- Behaviour of `executeCommand` when validation throws: the error is
formatted into the text body, a `COMMAND_ERROR` record follows the
`COMMAND_REQUESTED` one, and no subprocess is spawned. -/
theorem executeCommand_of_validation_error
    (performExec : String → Int → ExecOutcome) (command : String)
    (timeout : Option Int) (msg : String)
    (hv : validateCommand command = .error msg) :
    executeCommand performExec command timeout =
      { text := "Error executing command: " ++ msg
        log := [.requested command, .errored command msg]
        execCalls := [] } := by
  unfold executeCommand
  rw [hv]

/-- Behaviour of `executeCommand` when validation passes and the shell
execution completes normally. -/
theorem executeCommand_of_success
    (performExec : String → Int → ExecOutcome) (command : String)
    (timeout : Option Int) (s e : String)
    (hv : validateCommand command = .ok ())
    (hx : performExec command (min (timeout.getD CONFIG.timeoutMs) CONFIG.timeoutMs) =
      .success s e) :
    executeCommand performExec command timeout =
      { text := formatOutput s e
        log := [.requested command,
                .executed command true (formatOutput s e).length]
        execCalls := [(command, min (timeout.getD CONFIG.timeoutMs) CONFIG.timeoutMs)] } := by
  unfold executeCommand
  rw [hv]
  simp only []
  rw [hx]

/-- Behaviour of `executeCommand` when validation passes and the shell
execution fails. -/
theorem executeCommand_of_exec_failure
    (performExec : String → Int → ExecOutcome) (command : String)
    (timeout : Option Int) (msg : String)
    (hv : validateCommand command = .ok ())
    (hx : performExec command (min (timeout.getD CONFIG.timeoutMs) CONFIG.timeoutMs) =
      .failure msg) :
    executeCommand performExec command timeout =
      { text := "Error executing command: " ++ msg
        log := [.requested command, .errored command msg]
        execCalls := [(command, min (timeout.getD CONFIG.timeoutMs) CONFIG.timeoutMs)] } := by
  unfold executeCommand
  rw [hv]
  simp only []
  rw [hx]

/-- When the command contains some blocked substring, the validator
throws the blocked-pattern message for one of the blocked substrings. -/
theorem validateCommand_error_of_blocked (command : String)
    (h : ∃ b ∈ CONFIG.blockedCommands, strContains command b = true) :
    ∃ b ∈ CONFIG.blockedCommands,
      validateCommand command = .error ("Command contains blocked pattern: " ++ b) := by
  obtain ⟨b, hmem, hb⟩ := h
  cases hf : CONFIG.blockedCommands.find? (fun x => strContains command x) with
  | none => exact absurd hb (by simpa using List.find?_eq_none.mp hf b hmem)
  | some found =>
    refine ⟨found, List.mem_of_find?_eq_some hf, ?_⟩
    unfold validateCommand
    rw [hf]

/-- The output formatting, written as the case split of the spec: fixed
message when both captures are empty, otherwise the two optional
sections concatenated. -/
theorem formatOutput_spec (s e : String) :
    formatOutput s e =
      if s = "" ∧ e = "" then "Command executed successfully with no output."
      else (if s = "" then "" else "Standard Output:\n" ++ s ++ "\n") ++
           (if e = "" then "" else "Standard Error:\n" ++ e ++ "\n") := by
  unfold formatOutput
  by_cases hs : s = "" <;> by_cases he : e = "" <;>
    simp [hs, he, append_eq_empty_iff]

/-- The formatted output of a completed execution is never empty. -/
theorem formatOutput_length_pos (s e : String) : 0 < (formatOutput s e).length := by
  unfold formatOutput
  by_cases h : ((if s ≠ "" then "Standard Output:\n" ++ s ++ "\n" else "") ++
      (if e ≠ "" then "Standard Error:\n" ++ e ++ "\n" else "")) = ""
  · simp only [h, if_pos]
    decide
  · simp only [h, if_neg, if_false]
    exact length_pos_of_ne_empty _ h

/-- Joining a list headed by a non-empty string is non-empty. -/
theorem joinLines_ne_empty (x : String) (xs : List String) (hx : x ≠ "") :
    joinLines (x :: xs) ≠ "" := by
  cases xs with
  | nil => exact hx
  | cons y ys =>
    show x ++ "\n" ++ joinLines (y :: ys) ≠ ""
    intro hc
    rw [append_eq_empty_iff, append_eq_empty_iff] at hc
    exact hx hc.1.1

/-- A concatenation starts with its left part. -/
theorem strStartsWith_append (p s : String) : strStartsWith (p ++ s) p = true := by
  unfold strStartsWith
  have h : (p ++ s).toList = p.toList ++ s.toList := String.data_append p s
  rw [h]
  exact List.isPrefixOf_iff_prefix.mpr (List.prefix_append _ _)

/-- A formatted directory entry is never empty. -/
theorem formatDirEntry_ne_empty (d : DirEntry) : formatDirEntry d ≠ "" := by
  cases d with
  | dir name =>
    show "[DIR] " ++ name ≠ ""
    rw [Ne, append_eq_empty_iff]
    rintro ⟨h, -⟩
    exact absurd h (by decide)
  | file name =>
    show "[FILE] " ++ name ≠ ""
    rw [Ne, append_eq_empty_iff]
    rintro ⟨h, -⟩
    exact absurd h (by decide)

/-! Claim theorems. -/

/-- C1: for every command string containing at least one configured
blocked substring, the execute-command handler returns a text response
starting with `Error executing command: Command contains blocked
pattern` and never invokes the shell-execution function (no subprocess
is spawned). -/
theorem executeCommand_blocked_rejects
    (performExec : String → Int → ExecOutcome) (command : String) (timeout : Option Int)
    (h : ∃ b ∈ CONFIG.blockedCommands, strContains command b = true) :
    strStartsWith (executeCommand performExec command timeout).text
      "Error executing command: Command contains blocked pattern" = true ∧
    (executeCommand performExec command timeout).execCalls = [] := by
  obtain ⟨b, hmem, hv⟩ := validateCommand_error_of_blocked command h
  rw [executeCommand_of_validation_error performExec command timeout _ hv]
  refine ⟨?_, rfl⟩
  show strStartsWith ("Error executing command: " ++ ("Command contains blocked pattern: " ++ b))
    "Error executing command: Command contains blocked pattern" = true
  have hassoc : "Error executing command: " ++ ("Command contains blocked pattern: " ++ b) =
      "Error executing command: Command contains blocked pattern" ++ (": " ++ b) := by
    rw [← String.append_assoc, ← String.append_assoc]
    rfl
  rw [hassoc]
  exact strStartsWith_append _ _

/-- Witness for C1 at the command `sudo apt install x`. -/
theorem executeCommand_blocked_rejects_witness :
    strStartsWith
      (executeCommand (fun _ _ => ExecOutcome.success "" "") "sudo apt install x" none).text
      "Error executing command: Command contains blocked pattern" = true ∧
    (executeCommand (fun _ _ => ExecOutcome.success "" "") "sudo apt install x" none).execCalls
      = [] :=
  executeCommand_blocked_rejects (fun _ _ => ExecOutcome.success "" "") "sudo apt install x"
    none ⟨"sudo", by decide, by decide⟩

/-- C2 counterexample: `rm -rf /etc` matches the file-operation pattern
and contains no allowed directory, yet the handler's text is the
blocked-pattern error, not the directory error, because the blocklist
check fires first. -/
theorem fileOp_outside_allowed_cex :
    isFileOperation "rm -rf /etc" = true ∧
    (CONFIG.allowedDirectories.all fun dir => !(strContains "rm -rf /etc" dir)) = true ∧
    (executeCommand (fun _ _ => ExecOutcome.success "" "") "rm -rf /etc" none).text ≠
      "Error executing command: File operations only allowed in permitted directories" := by
  refine ⟨by decide, by decide, ?_⟩
  have h : (executeCommand (fun _ _ => ExecOutcome.success "" "") "rm -rf /etc" none).text =
      "Error executing command: Command contains blocked pattern: rm -rf" := rfl
  rw [h]
  decide

/-- C2 (amended): for every command matching the file-operation pattern,
containing no configured blocked substring, and not containing any
configured allowed directory as a literal substring, execute-command
returns exactly the directory-restriction error text. -/
theorem executeCommand_fileOp_outside_allowed
    (performExec : String → Int → ExecOutcome) (command : String) (timeout : Option Int)
    (hnb : ∀ b ∈ CONFIG.blockedCommands, strContains command b = false)
    (hfo : isFileOperation command = true)
    (hnd : ∀ dir ∈ CONFIG.allowedDirectories, strContains command dir = false) :
    (executeCommand performExec command timeout).text =
      "Error executing command: File operations only allowed in permitted directories" := by
  have hf : CONFIG.blockedCommands.find? (fun b => strContains command b) = none :=
    List.find?_eq_none.mpr (fun x hx => by simp [hnb x hx])
  have hA : CONFIG.allowedDirectories.any (fun dir => strContains command dir) = false :=
    List.any_eq_false.mpr (fun x hx => by simp [hnd x hx])
  have hv : validateCommand command =
      .error "File operations only allowed in permitted directories" := by
    unfold validateCommand
    rw [hf]
    simp only [hA, hfo, Bool.not_false, Bool.and_true, if_true]
  rw [executeCommand_of_validation_error performExec command timeout _ hv]
  rfl

/-- Witness for amended C2 at the command `cat /etc/passwd`. -/
theorem executeCommand_fileOp_outside_allowed_witness :
    (executeCommand (fun _ _ => ExecOutcome.success "" "") "cat /etc/passwd" (some 1000)).text =
      "Error executing command: File operations only allowed in permitted directories" :=
  executeCommand_fileOp_outside_allowed (fun _ _ => ExecOutcome.success "" "")
    "cat /etc/passwd" (some 1000) (by decide) (by decide) (by decide)

/-- C3: for every path string that starts with no configured
allowed-directory prefix, the `list_directory` handler returns exactly
the access-denied text and never reaches the directory-listing call. -/
theorem list_directory_denied (readdir : String → ReaddirResult) (path : String)
    (h : ∀ dir ∈ CONFIG.allowedDirectories, strStartsWith path dir = false) :
    (list_directory readdir path).text =
      "Error listing directory: Access denied - path outside allowed directories" ∧
    (list_directory readdir path).fsReads = [] := by
  have hA : isAllowedPath path = false := by
    unfold isAllowedPath
    exact List.any_eq_false.mpr (fun x hx => by simp [h x hx])
  unfold list_directory
  rw [hA]
  exact ⟨rfl, rfl⟩

/-- Witness for C3 at the path `/etc/passwd`. -/
theorem list_directory_denied_witness :
    (list_directory (fun _ => ReaddirResult.ok []) "/etc/passwd").text =
      "Error listing directory: Access denied - path outside allowed directories" ∧
    (list_directory (fun _ => ReaddirResult.ok []) "/etc/passwd").fsReads = [] :=
  list_directory_denied (fun _ => ReaddirResult.ok []) "/etc/passwd" (by decide)

/-- Every subprocess spawned by `executeCommand` is spawned with the
effective timeout `min (requested or default) CONFIG.timeoutMs`. -/
theorem executeCommand_execCalls_eff
    (performExec : String → Int → ExecOutcome) (command : String) (timeout : Option Int) :
    ∀ q ∈ (executeCommand performExec command timeout).execCalls,
      q.2 = min (timeout.getD CONFIG.timeoutMs) CONFIG.timeoutMs := by
  intro q hq
  cases hv : validateCommand command with
  | error msg =>
    rw [executeCommand_of_validation_error performExec command timeout msg hv] at hq
    simp at hq
  | ok u =>
    cases u
    cases hx : performExec command (min (timeout.getD CONFIG.timeoutMs) CONFIG.timeoutMs) with
    | success s e =>
      rw [executeCommand_of_success performExec command timeout s e hv hx] at hq
      simp only [List.mem_singleton] at hq
      rw [hq]
    | failure msg =>
      rw [executeCommand_of_exec_failure performExec command timeout msg hv hx] at hq
      simp only [List.mem_singleton] at hq
      rw [hq]

/-- C4: with a supplied timeout `t` the executor is invoked with
effective timeout `min t 30000`; with no timeout supplied it is invoked
with the configured ceiling `30000`. -/
theorem executeCommand_effective_timeout
    (performExec : String → Int → ExecOutcome) (command : String) :
    (∀ t : Int, ∀ q ∈ (executeCommand performExec command (some t)).execCalls,
        q.2 = min t 30000) ∧
    (∀ q ∈ (executeCommand performExec command none).execCalls, q.2 = 30000) := by
  constructor
  · intro t q hq
    exact executeCommand_execCalls_eff performExec command (some t) q hq
  · intro q hq
    have h := executeCommand_execCalls_eff performExec command none q hq
    simpa using h

/-- Witness for C4: a validated command with a supplied timeout of 5000
ms is executed with effective timeout `min 5000 30000`. -/
theorem executeCommand_effective_timeout_witness :
    (("ls" : String), (5000 : Int)).2 = min (5000 : Int) 30000 :=
  (executeCommand_effective_timeout (fun _ _ => ExecOutcome.success "" "") "ls").1 5000
    ("ls", 5000) (by decide)

/-- C5: a command with no blocked substring that is not classified as a
file operation passes validation with no directory requirement, and
execution proceeds: with the shell producing stdout `hello\n`,
`echo hello` yields the response text `Standard Output:\nhello\n\n`. -/
theorem nonFileOp_bypasses_directory_check :
    (∀ command : String,
        (∀ b ∈ CONFIG.blockedCommands, strContains command b = false) →
        isFileOperation command = false →
        validateCommand command = .ok ()) ∧
    (∀ performExec : String → Int → ExecOutcome,
        performExec "echo hello" 30000 = .success "hello\n" "" →
        (executeCommand performExec "echo hello" none).text =
          "Standard Output:\nhello\n\n") := by
  constructor
  · intro command hnb hnf
    unfold validateCommand
    have hf : CONFIG.blockedCommands.find? (fun b => strContains command b) = none :=
      List.find?_eq_none.mpr (fun x hx => by simp [hnb x hx])
    rw [hf]
    simp [hnf]
  · intro performExec hx
    have hv : validateCommand "echo hello" = .ok () := rfl
    have heff : min ((none : Option Int).getD CONFIG.timeoutMs) CONFIG.timeoutMs =
        (30000 : Int) := by decide
    have hx' : performExec "echo hello"
        (min ((none : Option Int).getD CONFIG.timeoutMs) CONFIG.timeoutMs) =
        .success "hello\n" "" := by
      rw [heff]
      exact hx
    rw [executeCommand_of_success performExec "echo hello" none "hello\n" "" hv hx']
    rfl

/-- Witness for C5: `date` (not a file operation) validates without
containing an allowed directory, and `echo hello` produces the plain
stdout response. -/
theorem nonFileOp_bypasses_directory_check_witness :
    validateCommand "date" = .ok () ∧
    (executeCommand (fun _ _ => ExecOutcome.success "hello\n" "") "echo hello" none).text =
      "Standard Output:\nhello\n\n" :=
  ⟨nonFileOp_bypasses_directory_check.1 "date" (by decide) (by decide),
   nonFileOp_bypasses_directory_check.2 (fun _ _ => ExecOutcome.success "hello\n" "") rfl⟩

/-- C6: every execute-command call hands the logger a
`COMMAND_REQUESTED` record followed by exactly one of
`COMMAND_EXECUTED` or `COMMAND_ERROR`, while `list_directory` and
`read_file` calls hand the logger nothing. -/
theorem handlers_log_shape :
    (∀ (performExec : String → Int → ExecOutcome) (command : String) (timeout : Option Int),
        (executeCommand performExec command timeout).log.map LogEntry.action =
          ["COMMAND_REQUESTED", "COMMAND_EXECUTED"] ∨
        (executeCommand performExec command timeout).log.map LogEntry.action =
          ["COMMAND_REQUESTED", "COMMAND_ERROR"]) ∧
    (∀ (readdir : String → ReaddirResult) (path : String),
        (list_directory readdir path).log = []) ∧
    (∀ (readFileFs : String → Except String String) (path : String),
        (read_file readFileFs path).log = []) := by
  refine ⟨?_, ?_, ?_⟩
  · intro performExec command timeout
    cases hv : validateCommand command with
    | error msg =>
      rw [executeCommand_of_validation_error performExec command timeout msg hv]
      right
      rfl
    | ok u =>
      cases u
      cases hx : performExec command (min (timeout.getD CONFIG.timeoutMs) CONFIG.timeoutMs) with
      | success s e =>
        rw [executeCommand_of_success performExec command timeout s e hv hx]
        left
        rfl
      | failure msg =>
        rw [executeCommand_of_exec_failure performExec command timeout msg hv hx]
        right
        rfl
  · intro readdir path
    cases hA : isAllowedPath path with
    | false => simp [list_directory, hA]
    | true =>
      cases hr : readdir path with
      | ok items => simp [list_directory, hA, hr]
      | err msg => simp [list_directory, hA, hr]
  · intro readFileFs path
    cases hA : isAllowedPath path with
    | false => simp [read_file, hA]
    | true =>
      cases hr : readFileFs path with
      | ok content => simp [read_file, hA, hr]
      | error msg => simp [read_file, hA, hr]

/-- C7: a failure of the log-sink append never propagates out of
`logActivity`: the call returns normally, and when the append failed the
error was reported only to the diagnostic channel with nothing reaching
the sink. -/
theorem logActivity_swallows_write_failure
    (appendFile : String → Except String Unit) (timestamp action details : String) :
    ∃ out : LoggerOutput,
      logActivity appendFile timestamp action details = .ok out ∧
      ∀ e, appendFile (logLine timestamp action details) = .error e →
        out.sinkLines = [] ∧
        out.diagnostics = ["Failed to write to log file: " ++ e] := by
  cases hA : appendFile (logLine timestamp action details) with
  | ok u =>
    refine ⟨{ sinkLines := [logLine timestamp action details], diagnostics := [] }, ?_, ?_⟩
    · simp [logActivity, hA]
    · intro e he
      exact absurd he (by simp)
  | error e0 =>
    refine ⟨{ sinkLines := [],
              diagnostics := ["Failed to write to log file: " ++ e0] }, ?_, ?_⟩
    · simp [logActivity, hA]
    · intro e he
      injection he with h
      subst h
      exact ⟨rfl, rfl⟩

/-- Witness for C7 at a sink whose append always fails. -/
theorem logActivity_swallows_write_failure_witness :
    ∃ out : LoggerOutput,
      logActivity (fun _ => Except.error "disk full") "2025-01-01T00:00:00.000Z"
        "COMMAND_REQUESTED" "cmd" = .ok out ∧
      ∀ e, (fun _ : String => (Except.error "disk full" : Except String Unit))
            (logLine "2025-01-01T00:00:00.000Z" "COMMAND_REQUESTED" "cmd") = .error e →
        out.sinkLines = [] ∧
        out.diagnostics = ["Failed to write to log file: " ++ e] :=
  logActivity_swallows_write_failure (fun _ => Except.error "disk full")
    "2025-01-01T00:00:00.000Z" "COMMAND_REQUESTED" "cmd"

/-- C8: when validation passes and execution completes normally with
stdout `s` and stderr `e`, the response text is the concatenation of the
`Standard Output:` section (present iff `s` is non-empty) and the
`Standard Error:` section (present iff `e` is non-empty), with the fixed
no-output message when both are empty. -/
theorem executeCommand_success_format
    (performExec : String → Int → ExecOutcome) (command : String) (timeout : Option Int)
    (s e : String)
    (hv : validateCommand command = .ok ())
    (hx : performExec command (min (timeout.getD CONFIG.timeoutMs) CONFIG.timeoutMs) =
      .success s e) :
    (executeCommand performExec command timeout).text =
      if s = "" ∧ e = "" then "Command executed successfully with no output."
      else (if s = "" then "" else "Standard Output:\n" ++ s ++ "\n") ++
           (if e = "" then "" else "Standard Error:\n" ++ e ++ "\n") := by
  rw [executeCommand_of_success performExec command timeout s e hv hx]
  exact formatOutput_spec s e

/-- Witness for C8 at a run of `true` with stdout `out\n` and empty
stderr. -/
theorem executeCommand_success_format_witness :
    (executeCommand (fun _ _ => ExecOutcome.success "out\n" "") "true" none).text =
      if ("out\n" : String) = "" ∧ ("" : String) = ""
      then "Command executed successfully with no output."
      else (if ("out\n" : String) = "" then ""
            else "Standard Output:\n" ++ "out\n" ++ "\n") ++
           (if ("" : String) = "" then ""
            else "Standard Error:\n" ++ "" ++ "\n") :=
  executeCommand_success_format (fun _ _ => ExecOutcome.success "out\n" "") "true" none
    "out\n" "" rfl rfl

/-- C9: on an allowed path whose listing succeeds, the response text
formats each entry as `[DIR] name` or `[FILE] name` joined by newlines
in listing order, and is exactly `Directory is empty` for an empty
directory. -/
theorem list_directory_format (readdir : String → ReaddirResult) (path : String)
    (items : List DirEntry)
    (hA : isAllowedPath path = true)
    (hr : readdir path = .ok items) :
    (list_directory readdir path).text =
      if items = [] then "Directory is empty"
      else joinLines (items.map formatDirEntry) := by
  simp only [list_directory, hA, hr, if_true]
  cases items with
  | nil => rfl
  | cons d ds =>
    have hne : joinLines ((d :: ds).map formatDirEntry) ≠ "" := by
      rw [List.map_cons]
      exact joinLines_ne_empty _ _ (formatDirEntry_ne_empty d)
    rw [if_neg hne, if_neg (by simp : ¬(d :: ds = []))]

/-- Witness for C9: an empty listing of the allowed directory returns
exactly the fixed message. -/
theorem list_directory_format_witness :
    (list_directory (fun _ => ReaddirResult.ok []) "/Users/tanmay/Documents").text =
      if ([] : List DirEntry) = [] then "Directory is empty"
      else joinLines (([] : List DirEntry).map formatDirEntry) :=
  list_directory_format (fun _ => ReaddirResult.ok []) "/Users/tanmay/Documents" []
    (by decide) rfl

/-- C10: the `COMMAND_EXECUTED` record carries `outputSize` equal to the
length of the formatted response text (headers or fixed no-output
message included), which is always strictly positive. -/
theorem executed_log_outputSize
    (performExec : String → Int → ExecOutcome) (command : String) (timeout : Option Int)
    (s e : String)
    (hv : validateCommand command = .ok ())
    (hx : performExec command (min (timeout.getD CONFIG.timeoutMs) CONFIG.timeoutMs) =
      .success s e) :
    (executeCommand performExec command timeout).log =
      [LogEntry.requested command,
       LogEntry.executed command true (executeCommand performExec command timeout).text.length] ∧
    0 < (executeCommand performExec command timeout).text.length := by
  rw [executeCommand_of_success performExec command timeout s e hv hx]
  exact ⟨rfl, formatOutput_length_pos s e⟩

/-- Witness for C10 at a run of `whoami` with no captured output: the
logged `outputSize` is the length of the fixed no-output message. -/
theorem executed_log_outputSize_witness :
    (executeCommand (fun _ _ => ExecOutcome.success "" "") "whoami" none).log =
      [LogEntry.requested "whoami",
       LogEntry.executed "whoami" true
         (executeCommand (fun _ _ => ExecOutcome.success "" "") "whoami" none).text.length] ∧
    0 < (executeCommand (fun _ _ => ExecOutcome.success "" "") "whoami" none).text.length :=
  executed_log_outputSize (fun _ _ => ExecOutcome.success "" "") "whoami" none "" "" rfl rfl
